import Mathlib

/-!
Shallow embedding of the olive render backend core:
`RenderBackend` (src/app/render/backend/renderbackend.cpp) and
`VideoRenderBackend` (src/unnamed/part_000, videorenderbackend.cpp).

Time is modelled by `ℚ` (the source `rational` type: exact int64
numerator/denominator arithmetic, denominator > 0).  The cache queue of
degenerate `TimeRange(r, r)` entries, keyed on `.in()`, is modelled as a
`List ℚ` of the in-points.  Node graphs are abstracted to node-id lists
(the claims under verification only concern how many nodes are copied and
when, never what a node computes).  Disk and image-codec behaviour is an
oracle (`DiskEnv`) passed to the lookup function.
-/

namespace Olive

/-- Degenerate or proper time range: ordered (in, out) pair of rational times
(`common/timerange.h`). -/
structure TimeRange where
  timeIn : ℚ
  timeOut : ℚ
deriving DecidableEq, Repr

/-- Video rendering parameters (`render/videoparams.h`): resolution, pixel
format enum value, downscale divider, and the time base (frame duration). -/
structure VideoRenderingParams where
  width : Int
  height : Int
  format : Int
  divider : Int
  timeBase : ℚ
deriving DecidableEq, Repr

/-- Modelled from the spec: `VideoRenderingParams::is_valid()` is not under
src/; the spec treats "empty/invalid render parameters" as parameters with an
unusable resolution, so validity is modelled as positive dimensions. -/
def VideoRenderingParams.is_valid (p : VideoRenderingParams) : Bool :=
  0 < p.width && 0 < p.height

/-- Combined mutable state of a `VideoRenderBackend` instance, which inherits
`RenderBackend` (fields follow renderbackend.h / videorenderbackend.h).
`processors` keeps each worker's `IsAvailable()` flag; `copyCount` counts
`Node::copy()` calls performed by `Compile`; `refreshLog` records the
time ranges over which `UpdateNodeInputs` re-copied live input values;
`viewerLength` is `viewer_node_->Length()`. -/
structure BackendState where
  compiled : Bool
  caching : Bool
  started : Bool
  viewerConnected : Bool
  copiedViewer : Bool
  valueUpdateQueued : Bool
  recompileQueued : Bool
  valueUpdateRange : TimeRange
  refreshLog : List TimeRange
  threads : Nat
  processors : List Bool
  errorMsg : String
  cacheName : String
  cacheTime : Int
  cacheId : String
  sourceNodeList : List Nat
  copiedNodeList : List Nat
  copyCount : Nat
  params : VideoRenderingParams
  lastTimeRequested : ℚ
  cacheQueue : List ℚ
  frameCache : List (ℚ × String)
  viewerLength : ℚ
deriving DecidableEq, Repr

/-- Disk / image codec oracle used by `GetCachedFrame`: whether a cache file
exists at a path, and the bytes `OIIO::ImageInput` decodes from it (`none`
when the open fails). -/
structure DiskEnv where
  fileExists : String → Bool
  decode : String → Option String

/-- Model of `RenderBackend::SequenceLength` (renderbackend.cpp:176-183): 0 when no
viewer node is attached, otherwise the viewer's length. -/
def SequenceLength (st : BackendState) : ℚ :=
  if st.viewerConnected = false then 0 else st.viewerLength

/-- Model of `RenderBackend::Close` (renderbackend.cpp:46-68): no-op unless started;
otherwise clears the started flag, stops and clears all threads and deletes
all workers. -/
def Close (st : BackendState) : BackendState :=
  if st.started = false then st
  else { st with started := false, threads := 0, processors := [] }

/-- Model of `RenderBackend::Init` (renderbackend.cpp:18-44): returns true at once if
already started; otherwise creates `idealThreadCount` threads, runs the
subclass `InitInternal` (its boolean outcome is the parameter `ii`; the
`VideoRenderBackend` override at part_000:108-112 always returns true, but
other subclasses may fail), calls `Close()` on failure, and returns the
started flag. -/
def Init (ii : Bool) (idealThreadCount : Nat) (st : BackendState) :
    BackendState × Bool :=
  if st.started = true then (st, true)
  else
    let st1 := { st with threads := idealThreadCount }
    let st2 := { st1 with started := ii }
    if st2.started = false then (Close st2, false) else (st2, true)

/-- Model of `RenderBackend::IsInitiated` (renderbackend.cpp:98-101). -/
def IsInitiated (st : BackendState) : Bool :=
  st.started

/-- Model of `RenderBackend::Decompile` (renderbackend.cpp:141-154): no-op if not
compiled, otherwise discards the copied graph, the copied viewer node and the
source node list. -/
def Decompile (st : BackendState) : BackendState :=
  if st.compiled = false then st
  else { st with copiedNodeList := [], copiedViewer := false,
                 sourceNodeList := [], compiled := false }

/-- Body of `RenderBackend::Compile` after the recompile/compiled guard
(renderbackend.cpp:112-138): appends the viewer node (id 0) and its
dependencies `deps` to `source_node_list_`, deep-copies every listed node
into the copied graph, takes the first copied node as the copied viewer,
runs the subclass `CompileInternal` (outcome parameter `ci`; its
implementations are outside src/), and decompiles on failure. -/
def doCompile (ci : Bool) (deps : List Nat) (st : BackendState) :
    BackendState × Bool :=
  let src := st.sourceNodeList ++ 0 :: deps
  let st1 := { st with sourceNodeList := src,
                       copiedNodeList := st.copiedNodeList ++ src,
                       copyCount := st.copyCount + src.length,
                       copiedViewer := true,
                       compiled := ci }
  if ci = false then (Decompile st1, false) else (st1, true)

/-- Model of `RenderBackend::Compile` (renderbackend.cpp:103-139): if a recompile is
queued, decompile first and clear the flag; else return true immediately if
already compiled; otherwise copy the graph. -/
def Compile (ci : Bool) (deps : List Nat) (st : BackendState) :
    BackendState × Bool :=
  if st.recompileQueued = true then
    doCompile ci deps { Decompile st with recompileQueued := false }
  else if st.compiled = true then (st, true)
  else doCompile ci deps st

/-- Model of `RenderBackend::QueueRecompile` (renderbackend.cpp:324-327). -/
def QueueRecompile (st : BackendState) : BackendState :=
  { st with recompileQueued := true }

/-- Model of `RenderBackend::QueueValueUpdate` (renderbackend.cpp:255-259). -/
def QueueValueUpdate (st : BackendState) (range : TimeRange) : BackendState :=
  { st with valueUpdateQueued := true, valueUpdateRange := range }

/-- Model of `RenderBackend::UpdateNodeInputs` (renderbackend.cpp:261-280): when a
value update is queued, re-copies input values from every live node to its
copy and drops cached output values overlapping the queued range (recorded
here in `refreshLog`), then clears the flag. -/
def UpdateNodeInputs (st : BackendState) : BackendState :=
  if st.valueUpdateQueued = false then st
  else { st with refreshLog := st.valueUpdateRange :: st.refreshLog,
                 valueUpdateQueued := false }

/-- Worker selection of `RenderBackend::GenerateData`
(renderbackend.cpp:222-230): index of the first worker whose
`IsAvailable()` flag is set, or of the last worker when none is available;
`none` for an empty pool. -/
def firstIdleOrLast : List Bool → Option Nat
  | [] => none
  | w :: rest =>
    if rest = [] then some 0
    else if w = true then some 0
    else (firstIdleOrLast rest).map (· + 1)

/-- Model of `RenderBackend::GenerateData` (renderbackend.cpp:213-233): compiles (with
subclass outcome `ci`), returns false if compilation fails, otherwise
dispatches to the worker chosen by `firstIdleOrLast` (none when the pool is
empty, in which case the loop falls through and returns false). -/
def GenerateData (ci : Bool) (deps : List Nat) (st : BackendState) :
    BackendState × Option Nat :=
  let c := Compile ci deps st
  if c.2 = false then (c.1, none)
  else (c.1, firstIdleOrLast c.1.processors)

/-- Model of `RenderBackend::CacheNext` (renderbackend.cpp:200-211): returns doing
nothing further if `Init()` fails, the cache queue is empty, no viewer is
connected, or a dispatch is already in flight; otherwise refreshes node
inputs, takes the first queued time and hands it to a worker via
`GenerateData`, recording the outcome in `caching_`.  Returns the new state
and, when a dispatch happened, the dispatched time and worker index. -/
def CacheNext (ii : Bool) (tc : Nat) (ci : Bool) (deps : List Nat)
    (st : BackendState) : BackendState × Option (ℚ × Nat) :=
  let p := Init ii tc st
  if p.2 = false ∨ p.1.cacheQueue = [] ∨ p.1.viewerConnected = false ∨
      p.1.caching = true then
    (p.1, none)
  else
    let st2 := UpdateNodeInputs p.1
    let head := st2.cacheQueue.headI
    let st3 := { st2 with cacheQueue := st2.cacheQueue.tail }
    let g := GenerateData ci deps st3
    ({ g.1 with caching := g.2.isSome }, g.2.map (fun w => (head, w)))

/-- Snapping of the clamped start to the time base
(part_000:55-59).  The source computes, via double arithmetic,
`floor(start * tb.den / tb.num) * tb.num / tb.den`, which equals
`⌊start / tb⌋ * tb` exactly (the embedding uses exact rational arithmetic in
place of the source's `double` round-trip). -/
def snapToTimebase (t : ℚ) (tb : ℚ) : ℚ :=
  (⌊t / tb⌋ : ℚ) * tb

/-- Distance metric of the scheduler (part_000:63-72): signed distance of a
point to the last requested time, magnitude multiplied by 5 when the point is
behind it. -/
def penalizedDiff (lastTime r : ℚ) : ℚ :=
  let diff := r - lastTime
  if diff < 0 then |diff| * 5 else diff

/-- Insertion scan of `VideoRenderBackend::InvalidateCache`
(part_000:74-96): walk the queue; insert the new point `r` (with computed
distance `d`) before the first entry whose raw signed distance to
`lastTime` exceeds `d`; stop without inserting on an entry equal to `r`;
append when the scan falls off the end. -/
def insertScan (lastTime d r : ℚ) : List ℚ → List ℚ
  | [] => [r]
  | c :: rest =>
    if d < c - lastTime then r :: c :: rest
    else if c = r then c :: rest
    else c :: insertScan lastTime d r rest

/-- Enumeration loop bounds of `InvalidateCache` (part_000:61): the points
`trueStart + k * tb` for `k = 0, 1, ...` while the point is `≤ endAdj`.
Defined (empty) for a non-positive time base, where the source loop would
not terminate; valid parameters always carry a positive time base. -/
def enumPoints (trueStart endAdj tb : ℚ) : List ℚ :=
  if 0 < tb ∧ trueStart ≤ endAdj then
    (List.range (Nat.floor ((endAdj - trueStart) / tb) + 1)).map
      (fun k : ℕ => trueStart + (k : ℚ) * tb)
  else []

/-- Modelled from the spec: `VideoRenderFrameCache::Truncate` is not under
src/; per §4.3 it drops all time-to-hash mappings for times beyond the given
maximum. -/
def Truncate (fc : List (ℚ × String)) (maxTime : ℚ) : List (ℚ × String) :=
  fc.filter (fun e => e.1 ≤ maxTime)

/-- Modelled from the spec: `VideoRenderFrameCache::TimeToHash` is not under
src/; per §4.3 it returns the stored content hash for a time, or empty if
none is stored. -/
def TimeToHash (fc : List (ℚ × String)) (t : ℚ) : String :=
  ((fc.find? (fun e => e.1 = t)).map Prod.snd).getD ""

/-- Modelled from the spec: `VideoRenderFrameCache::CachePathName` is not
under src/; per §4.3 it deterministically derives a file path from the cache
ID namespace and the content hash. -/
def CachePathName (cacheId hash : String) : String :=
  cacheId ++ "/" ++ hash

/-- SHA-1 accumulation of `QCryptographicHash`, modelled as an injective
encoding (length-prefixed concatenation) of the byte strings fed to the
hash in order; the claims under verification only use that the digest is a
deterministic function of the fed data. -/
def hashDigest (tokens : List String) : String :=
  tokens.foldl (fun acc t => acc ++ toString t.length ++ ":" ++ t) ""

/-- Model of `VideoRenderBackend::GenerateCacheIDInternal` (part_000:155-168): fails
on invalid parameters, otherwise feeds width, height, format and divider to
the hash. -/
def GenerateCacheIDInternal (p : VideoRenderingParams) : Option (List String) :=
  if p.is_valid = false then none
  else some [toString p.width, toString p.height,
             toString p.format, toString p.divider]

/-- Model of `RenderBackend::RegenerateCacheID` (renderbackend.cpp:156-174): clears
the ID when the cache name is empty, the creation timestamp is zero, or the
subclass refuses (invalid parameters); otherwise the ID is the digest over
the subclass tokens followed by the cache name and the timestamp. -/
def RegenerateCacheID (cacheName : String) (cacheTime : Int)
    (p : VideoRenderingParams) : String :=
  if cacheName = "" ∨ cacheTime = 0 then ""
  else
    match GenerateCacheIDInternal p with
    | none => ""
    | some toks => hashDigest (toks ++ [cacheName, toString cacheTime])

/-- Model of `VideoRenderBackend::SetParameters` (part_000:139-153): stores the new
parameters, propagates them to the workers, and regenerates the cache ID
(which `CacheIDChangedEvent`, part_000:170-173, also installs as the frame
cache's ID — one field here). -/
def SetParameters (st : BackendState) (p : VideoRenderingParams) :
    BackendState :=
  { st with params := p,
            cacheId := RegenerateCacheID st.cacheName st.cacheTime p }

/-- Model of `VideoRenderBackend::InvalidateCache` (part_000:40-106): no-op on
invalid parameters; otherwise clamps the range to `[0, SequenceLength]`,
snaps the clamped start down to the time base, inserts every enumerated
point through the insertion scan, truncates the frame cache to the sequence
length, queues a value update over the original (unclamped) range, and
finally attempts a dispatch via `CacheNext`. -/
def InvalidateCache (ii : Bool) (tc : Nat) (ci : Bool) (deps : List Nat)
    (st : BackendState) (startRange endRange : ℚ) : BackendState :=
  if st.params.is_valid = false then st
  else
    let startAdj := max 0 startRange
    let endAdj := min (SequenceLength st) endRange
    let trueStart := snapToTimebase startAdj st.params.timeBase
    let pts := enumPoints trueStart endAdj st.params.timeBase
    let q := pts.foldl
      (fun acc r =>
        insertScan st.lastTimeRequested
          (penalizedDiff st.lastTimeRequested r) r acc)
      st.cacheQueue
    let st1 := QueueValueUpdate
      { st with cacheQueue := q,
                frameCache := Truncate st.frameCache (SequenceLength st) }
      ⟨startRange, endRange⟩
    (CacheNext ii tc ci deps st1).1

/-- Model of `VideoRenderBackend::GetCachedFrame` (part_000:188-229): records the
requested time as the last time requested, then returns the decoded cache
file bytes when a viewer is attached (the copied viewer node,
renderbackend.cpp:235-238), the cache ID is non-empty, the parameters are
valid, the time maps to a stored hash, and the derived file exists and
decodes; `none` ("unavailable") otherwise. -/
def GetCachedFrame (env : DiskEnv) (st : BackendState) (time : ℚ) :
    BackendState × Option String :=
  let st1 := { st with lastTimeRequested := time }
  if st1.copiedViewer = false then (st1, none)
  else if st1.cacheId = "" then (st1, none)
  else if st1.params.is_valid = false then (st1, none)
  else
    let frameHash := TimeToHash st1.frameCache time
    if frameHash = "" then (st1, none)
    else
      let fn := CachePathName st1.cacheId frameHash
      if env.fileExists fn = false then (st1, none)
      else
        match env.decode fn with
        | some bytes => (st1, some bytes)
        | none => (st1, none)

/-! Concrete fixtures used to exercise the definitions. -/

/-- Disk oracle of an empty cache directory: no file exists, nothing
decodes. -/
def envNone : DiskEnv :=
  ⟨fun _ => false, fun _ => none⟩

/-- Sample valid render parameters: 1920x1080, format 4, divider 2, time
base 1 second. -/
def vp0 : VideoRenderingParams :=
  ⟨1920, 1080, 4, 2, 1⟩

/-- Sample backend state: started, viewer connected, a dispatch in flight
(`caching`), last requested time 2, sequence length 10, empty queue. -/
def st0 : BackendState :=
  { compiled := false, caching := true, started := true,
    viewerConnected := true, copiedViewer := false,
    valueUpdateQueued := false, recompileQueued := false,
    valueUpdateRange := ⟨0, 0⟩, refreshLog := [],
    threads := 4, processors := [], errorMsg := "",
    cacheName := "Test", cacheTime := 1, cacheId := "",
    sourceNodeList := [], copiedNodeList := [], copyCount := 0,
    params := vp0, lastTimeRequested := 2, cacheQueue := [],
    frameCache := [], viewerLength := 10 }

/-- Backend whose parameters are invalid (zero width). -/
def stInvalid : BackendState :=
  { st0 with params := { vp0 with width := 0 } }

/-- Backend with a 1/24-second time base and playhead at 0. -/
def stSnap : BackendState :=
  { st0 with params := { vp0 with timeBase := 1/24 }, lastTimeRequested := 0 }

/-- Backend whose last requested time is 5. -/
def stBehind : BackendState :=
  { st0 with lastTimeRequested := 5 }

/-- Started backend with no dispatch in flight, a queued point, one
available worker, and no compiled snapshot. -/
def stNoSnapshot : BackendState :=
  { st0 with caching := false, cacheQueue := [1], processors := [true] }

/-- Unstarted backend with a queued point, a connected viewer, a compiled
snapshot, one available worker, and no dispatch in flight. -/
def stLazy : BackendState :=
  { st0 with started := false, threads := 0, caching := false,
             cacheQueue := [1], processors := [true], compiled := true }

/-- Started backend with a queued point, a compiled snapshot, no dispatch in
flight, and an empty worker pool. -/
def stNoPool : BackendState :=
  { st0 with caching := false, cacheQueue := [1], processors := [],
             compiled := true }

/-- Backend that has never been started. -/
def stUnstarted : BackendState :=
  { st0 with started := false, threads := 0 }

/-! Helper lemmas about the scheduler queue. -/

/-- Inserting a point not already present is, up to order, consing it. -/
lemma insertScan_perm (lt d r : ℚ) :
    ∀ q : List ℚ, r ∉ q → List.Perm (insertScan lt d r q) (r :: q) := by
  intro q
  induction q with
  | nil => intro _; simp [insertScan]
  | cons c rest ih =>
    intro hmem
    have hcr : c ≠ r := fun h => hmem (h ▸ List.mem_cons_self c rest)
    have hrest : r ∉ rest := fun h => hmem (List.mem_cons_of_mem c h)
    by_cases h1 : d < c - lt
    · simp [insertScan, h1]
    · simp only [insertScan, if_neg h1, if_neg hcr]
      exact ((ih hrest).cons c).trans (List.Perm.swap r c rest)

/-- Folding the insertion scan over pairwise-distinct fresh points adds
exactly those points to the queue, up to order. -/
lemma foldl_insertScan_perm (lt : ℚ) (pd : ℚ → ℚ) :
    ∀ (pts q : List ℚ), pts.Nodup → (∀ t ∈ pts, t ∉ q) →
      List.Perm (pts.foldl (fun acc r => insertScan lt (pd r) r acc) q)
        (pts ++ q) := by
  intro pts
  induction pts with
  | nil => intro q _ _; simp
  | cons p rest ih =>
    intro q hnd hdisj
    have hpq : p ∉ q := hdisj p (List.mem_cons_self p rest)
    have hperm1 : List.Perm (insertScan lt (pd p) p q) (p :: q) :=
      insertScan_perm lt _ p q hpq
    have hdisj2 : ∀ t ∈ rest, t ∉ insertScan lt (pd p) p q := by
      intro t ht hmem
      rcases List.mem_cons.mp ((hperm1.mem_iff).mp hmem) with h | h
      · exact (List.nodup_cons.mp hnd).1 (h ▸ ht)
      · exact hdisj t (List.mem_cons_of_mem p ht) h
    have step1 :
        (p :: rest).foldl (fun acc r => insertScan lt (pd r) r acc) q
          = rest.foldl (fun acc r => insertScan lt (pd r) r acc)
              (insertScan lt (pd p) p q) := by
      simp [List.foldl_cons]
    have step2 :
        List.Perm
          (rest.foldl (fun acc r => insertScan lt (pd r) r acc)
            (insertScan lt (pd p) p q))
          (rest ++ insertScan lt (pd p) p q) :=
      ih _ (List.nodup_cons.mp hnd).2 hdisj2
    have step3 : List.Perm (rest ++ insertScan lt (pd p) p q)
        (rest ++ p :: q) := List.Perm.append_left rest hperm1
    have step4 : List.Perm (rest ++ p :: q) (p :: (rest ++ q)) :=
      List.perm_middle
    rw [step1]
    exact ((step2.trans step3).trans step4)

/-- The enumerated invalidation points are pairwise distinct. -/
lemma enumPoints_nodup (ts e tb : ℚ) (htb : 0 < tb) :
    (enumPoints ts e tb).Nodup := by
  unfold enumPoints
  split
  · refine (List.nodup_range _).map ?_
    intro a b hab
    have h1 : (a : ℚ) * tb = (b : ℚ) * tb := add_left_cancel hab
    have h2 : (a : ℚ) = (b : ℚ) := mul_right_cancel₀ htb.ne' h1
    exact_mod_cast h2
  · exact List.nodup_nil

/-- Membership in the enumerated points: exactly the time-base multiples
counted from the snapped start that do not pass the clamped end. -/
lemma mem_enumPoints (ts e tb t : ℚ) (htb : 0 < tb) :
    t ∈ enumPoints ts e tb ↔ ∃ k : ℕ, t = ts + (k : ℚ) * tb ∧ t ≤ e := by
  unfold enumPoints
  by_cases hse : ts ≤ e
  · rw [if_pos ⟨htb, hse⟩]
    simp only [List.mem_map, List.mem_range]
    constructor
    · rintro ⟨k, hk, rfl⟩
      refine ⟨k, rfl, ?_⟩
      have hk2 : k ≤ Nat.floor ((e - ts) / tb) := Nat.lt_succ_iff.mp hk
      have h0 : (0 : ℚ) ≤ (e - ts) / tb :=
        div_nonneg (sub_nonneg.mpr hse) htb.le
      have h3 : (k : ℚ) ≤ (e - ts) / tb :=
        le_trans (Nat.cast_le.mpr hk2) (Nat.floor_le h0)
      have h4 : (k : ℚ) * tb ≤ e - ts := (le_div_iff₀ htb).mp h3
      linarith
    · rintro ⟨k, rfl, hle⟩
      refine ⟨k, ?_, rfl⟩
      have h4 : (k : ℚ) * tb ≤ e - ts := by linarith
      have h3 : (k : ℚ) ≤ (e - ts) / tb := (le_div_iff₀ htb).mpr h4
      exact Nat.lt_succ_iff.mpr (Nat.le_floor h3)
  · rw [if_neg (fun h => hse h.2)]
    simp only [List.not_mem_nil, false_iff, not_exists, not_and]
    rintro k rfl
    intro hle
    have : (0 : ℚ) ≤ (k : ℚ) * tb :=
      mul_nonneg (Nat.cast_nonneg k) htb.le
    exact hse (by linarith)

/-- A dispatch in flight freezes `CacheNext` on a started backend. -/
lemma cacheNext_noop_of_caching (ii : Bool) (tc : Nat) (ci : Bool)
    (deps : List Nat) (st : BackendState)
    (h1 : st.started = true) (h2 : st.caching = true) :
    CacheNext ii tc ci deps st = (st, none) := by
  simp [CacheNext, Init, h1, h2]

/-- Specification of the worker chosen by `GenerateData`: the first
available one, or the last of a non-empty pool when none is available. -/
lemma firstIdleOrLast_spec :
    ∀ ws : List Bool, ws ≠ [] →
      ∃ w, firstIdleOrLast ws = some w ∧
        (∀ j, j < w → ws.getD j false = false) ∧
        (ws.getD w false = true ∨ w = ws.length - 1) := by
  intro ws
  induction ws with
  | nil => intro h; exact absurd rfl h
  | cons b rest ih =>
    intro _
    by_cases hr : rest = []
    · subst hr
      refine ⟨0, by simp [firstIdleOrLast], fun j hj => absurd hj (by omega), ?_⟩
      by_cases hb : b = true
      · exact Or.inl (by simp [hb])
      · exact Or.inr (by simp)
    · by_cases hb : b = true
      · exact ⟨0, by simp [firstIdleOrLast, hr, hb],
          fun j hj => absurd hj (by omega), Or.inl (by simp [hb])⟩
      · obtain ⟨w, hw, hbefore, hat⟩ := ih hr
        refine ⟨w + 1, by simp [firstIdleOrLast, hr, hb, hw], ?_, ?_⟩
        · intro j hj
          match j with
          | 0 =>
            simp only [Bool.not_eq_true] at hb
            simpa using hb
          | j + 1 => exact hbefore j (by omega)
        · rcases hat with h | h
          · exact Or.inl (by simpa using h)
          · refine Or.inr ?_
            have hlen : rest.length ≠ 0 := fun hc => hr (List.eq_nil_of_length_eq_zero hc)
            simp only [List.length_cons]
            omega

/-- A `doCompile` call that reports success leaves a compiled snapshot and
does not touch the recompile flag. -/
lemma doCompile_result (ci : Bool) (deps : List Nat) (st st2 : BackendState)
    (h : doCompile ci deps st = (st2, true)) :
    st2.compiled = true ∧ st2.recompileQueued = st.recompileQueued := by
  unfold doCompile at h
  by_cases hci : ci = false
  · rw [if_pos hci] at h
    exact absurd (congrArg Prod.snd h) (by simp)
  · rw [if_neg hci] at h
    have hc : ci = true := by
      cases ci
      · exact absurd rfl hci
      · rfl
    have hst : st2 = { st with
        sourceNodeList := st.sourceNodeList ++ 0 :: deps,
        copiedNodeList := st.copiedNodeList ++ (st.sourceNodeList ++ 0 :: deps),
        copyCount := st.copyCount + (st.sourceNodeList ++ 0 :: deps).length,
        copiedViewer := true, compiled := ci } :=
      (congrArg Prod.fst h).symm
    rw [hst, hc]
    exact ⟨rfl, rfl⟩

/-- A `Compile` call that reports success leaves a compiled snapshot with no
recompile queued. -/
lemma compile_result (ci : Bool) (deps : List Nat) (st st2 : BackendState)
    (h : Compile ci deps st = (st2, true)) :
    st2.compiled = true ∧ st2.recompileQueued = false := by
  unfold Compile at h
  by_cases hrq : st.recompileQueued = true
  · rw [if_pos hrq] at h
    obtain ⟨h1, h2⟩ := doCompile_result _ _ _ _ h
    exact ⟨h1, h2⟩
  · rw [if_neg hrq] at h
    by_cases hc : st.compiled = true
    · rw [if_pos hc] at h
      have : st = st2 := congrArg Prod.fst h
      subst this
      exact ⟨hc, Bool.not_eq_true _ ▸ hrq⟩
    · rw [if_neg hc] at h
      obtain ⟨h1, h2⟩ := doCompile_result _ _ _ _ h
      rw [h2]
      exact ⟨h1, Bool.not_eq_true _ ▸ hrq⟩

/-- Closed form of `Init`: an already-started backend is returned as is with
result true; otherwise the thread field is resized and the started flag takes
the subclass outcome, which is also the result (on failure, `Close` returns
immediately because the started flag is already false). -/
lemma init_eq (ii : Bool) (tc : Nat) (st : BackendState) :
    Init ii tc st =
      if st.started = true then (st, true)
      else ({ st with threads := tc, started := ii }, ii) := by
  by_cases h : st.started = true
  · simp [Init, h]
  · cases ii with
    | false => simp [Init, Close, h]
    | true => simp [Init, Close, h]

/-- Compilation never touches the worker pool. -/
lemma Compile_fst_processors (ci : Bool) (deps : List Nat)
    (st : BackendState) :
    (Compile ci deps st).1.processors = st.processors := by
  simp only [Compile, doCompile, Decompile]
  split_ifs <;> rfl

/-- Compilation never touches the cache queue. -/
lemma Compile_fst_cacheQueue (ci : Bool) (deps : List Nat)
    (st : BackendState) :
    (Compile ci deps st).1.cacheQueue = st.cacheQueue := by
  simp only [Compile, doCompile, Decompile]
  split_ifs <;> rfl

/-- Compilation never touches the queued-value-update flag. -/
lemma Compile_fst_valueUpdateQueued (ci : Bool) (deps : List Nat)
    (st : BackendState) :
    (Compile ci deps st).1.valueUpdateQueued = st.valueUpdateQueued := by
  simp only [Compile, doCompile, Decompile]
  split_ifs <;> rfl

/-- Compilation never touches the refresh log. -/
lemma Compile_fst_refreshLog (ci : Bool) (deps : List Nat)
    (st : BackendState) :
    (Compile ci deps st).1.refreshLog = st.refreshLog := by
  simp only [Compile, doCompile, Decompile]
  split_ifs <;> rfl

/-- Initialization touches only the thread and started fields. -/
lemma Init_fst_fields (ii : Bool) (tc : Nat) (st : BackendState) :
    (Init ii tc st).1.cacheQueue = st.cacheQueue
    ∧ (Init ii tc st).1.viewerConnected = st.viewerConnected
    ∧ (Init ii tc st).1.caching = st.caching
    ∧ (Init ii tc st).1.valueUpdateQueued = st.valueUpdateQueued
    ∧ (Init ii tc st).1.valueUpdateRange = st.valueUpdateRange
    ∧ (Init ii tc st).1.refreshLog = st.refreshLog
    ∧ (Init ii tc st).1.processors = st.processors := by
  rw [init_eq]
  split_ifs <;> exact ⟨rfl, rfl, rfl, rfl, rfl, rfl, rfl⟩

/-- The node-input refresh never touches the cache queue. -/
lemma UpdateNodeInputs_cacheQueue (st : BackendState) :
    (UpdateNodeInputs st).cacheQueue = st.cacheQueue := by
  unfold UpdateNodeInputs
  split_ifs <;> rfl

/-- The node-input refresh never touches the worker pool. -/
lemma UpdateNodeInputs_processors (st : BackendState) :
    (UpdateNodeInputs st).processors = st.processors := by
  unfold UpdateNodeInputs
  split_ifs <;> rfl

/-- After the node-input refresh no value update remains queued. -/
lemma UpdateNodeInputs_valueUpdateQueued (st : BackendState) :
    (UpdateNodeInputs st).valueUpdateQueued = false := by
  unfold UpdateNodeInputs
  split_ifs with h
  · exact h
  · rfl

/-- When a value update is queued, the node-input refresh records its range
on the refresh log. -/
lemma UpdateNodeInputs_refreshLog (st : BackendState)
    (h : st.valueUpdateQueued = true) :
    (UpdateNodeInputs st).refreshLog =
      st.valueUpdateRange :: st.refreshLog := by
  unfold UpdateNodeInputs
  rw [if_neg (by rw [h]; simp)]

/-- On a started backend with a dispatch in flight, the queue produced by
`InvalidateCache` is the fold of the insertion scan over the enumerated
points (the trailing `CacheNext` does not pop: a dispatch is in flight). -/
lemma invalidateCache_queue (ii : Bool) (tc : Nat) (ci : Bool)
    (deps : List Nat) (st : BackendState) (s e : ℚ)
    (hv : st.params.is_valid = true) (hst : st.started = true)
    (hca : st.caching = true) :
    (InvalidateCache ii tc ci deps st s e).cacheQueue =
      (enumPoints (snapToTimebase (max 0 s) st.params.timeBase)
          (min (SequenceLength st) e) st.params.timeBase).foldl
        (fun acc r => insertScan st.lastTimeRequested
          (penalizedDiff st.lastTimeRequested r) r acc) st.cacheQueue := by
  simp only [InvalidateCache, hv]
  rw [if_neg (by simp)]
  rw [cacheNext_noop_of_caching ii tc ci deps _
    (by simpa [QueueValueUpdate] using hst)
    (by simpa [QueueValueUpdate] using hca)]
  simp [QueueValueUpdate]

/-- C9: calling `InvalidateCache` while the render parameters are invalid is
a silent no-op — the backend state, in particular its cache queue, frame
cache and queued value update, is returned unchanged. -/
theorem C9_invalidate_invalid_params_noop (ii : Bool) (tc : Nat) (ci : Bool)
    (deps : List Nat) (st : BackendState) (s e : ℚ)
    (h : st.params.is_valid = false) :
    InvalidateCache ii tc ci deps st s e = st := by
  simp [InvalidateCache, h]

/-- C9 witness: a zero-width backend ignores an invalidation over [0, 3]. -/
theorem C9_witness :
    stInvalid.params.is_valid = false
    ∧ InvalidateCache true 4 true [] stInvalid 0 3 = stInvalid :=
  ⟨by decide,
   C9_invalidate_invalid_params_noop true 4 true [] stInvalid 0 3 (by decide)⟩

/-- C10: `GetCachedFrame` records the requested time as the last requested
time on every path, including all failure paths that return `none`. -/
theorem C10_request_time_always_recorded (env : DiskEnv) (st : BackendState)
    (t : ℚ) :
    (GetCachedFrame env st t).1.lastTimeRequested = t := by
  simp only [GetCachedFrame]
  repeat' split
  all_goals rfl

/-- C4: when the internal init step fails on an unstarted backend, `Init`
returns false and leaves the backend uninitiated (as the claim states), but
the four threads it started are still present afterwards and no error
message has been set — `Close()` returns immediately because `started_` is
already false, so the claimed teardown never happens. -/
theorem C4_init_failure_keeps_threads :
    (Init false 4 stUnstarted).2 = false
    ∧ IsInitiated (Init false 4 stUnstarted).1 = false
    ∧ (Init false 4 stUnstarted).1.threads = 4
    ∧ (Init false 4 stUnstarted).1.errorMsg = "" := by
  refine ⟨rfl, rfl, rfl, rfl⟩

/-- C6: the cache ID is a deterministic function of width, height, pixel
format, divider, cache name and creation timestamp alone (two parameter sets
agreeing on those fields — even with different time bases — give the same
ID); `SetParameters` recomputes the ID from the new parameters; invalid
parameters or an empty cache name yield an empty ID. -/
theorem C6_cache_id_deterministic
    (p q : VideoRenderingParams) (name : String) (time : Int)
    (hw : p.width = q.width) (hh : p.height = q.height)
    (hf : p.format = q.format) (hd : p.divider = q.divider) :
    RegenerateCacheID name time p = RegenerateCacheID name time q
    ∧ (∀ (st : BackendState) (p2 : VideoRenderingParams),
        (SetParameters st p2).cacheId =
          RegenerateCacheID st.cacheName st.cacheTime p2)
    ∧ (p.is_valid = false → RegenerateCacheID name time p = "")
    ∧ RegenerateCacheID "" time p = "" := by
  refine ⟨?_, fun st p2 => rfl, ?_, ?_⟩
  · unfold RegenerateCacheID GenerateCacheIDInternal VideoRenderingParams.is_valid
    rw [hw, hh, hf, hd]
  · intro hv
    simp [RegenerateCacheID, GenerateCacheIDInternal, hv]
  · simp [RegenerateCacheID]

/-- C6 witness: two parameter sets differing only in the time base produce
the same cache ID. -/
theorem C6_witness :
    vp0.width = ({ vp0 with timeBase := 1/24 } : VideoRenderingParams).width
    ∧ RegenerateCacheID "Test" 1 vp0 =
        RegenerateCacheID "Test" 1 { vp0 with timeBase := 1/24 } :=
  ⟨rfl,
   (C6_cache_id_deterministic vp0 { vp0 with timeBase := 1/24 } "Test" 1
      rfl rfl rfl rfl).1⟩

/-- C7: once `Compile` has returned true, every further `Compile` call before
the next `QueueRecompile` returns true and leaves the state — including the
copied graph, the copied viewer node, the source node list and the node-copy
count — unchanged. -/
theorem C7_compile_idempotent_after_success
    (ci : Bool) (deps : List Nat) (st st2 : BackendState)
    (h : Compile ci deps st = (st2, true)) :
    ∀ (ci2 : Bool) (deps2 : List Nat), Compile ci2 deps2 st2 = (st2, true) := by
  obtain ⟨hc, hrq⟩ := compile_result ci deps st st2 h
  intro ci2 deps2
  unfold Compile
  rw [if_neg (by rw [hrq]; exact Bool.false_ne_true), if_pos hc]

/-- C7 witness: after a successful compile from the sample state, a further
compile (even with a failing subclass outcome) returns true on the unchanged
state. -/
theorem C7_witness :
    Compile false [] (Compile true [1] st0).1 = ((Compile true [1] st0).1, true) :=
  C7_compile_idempotent_after_success true [1] st0 (Compile true [1] st0).1
    (Prod.ext rfl (by decide)) false []

/-- C5: `GetCachedFrame` returns the decoded cache-file bytes exactly when a
viewer is attached, the cache ID is non-empty, the parameters are valid, the
time maps to a stored content hash, the derived cache file exists, and it
decodes; in every other case it returns `none` ("unavailable"). -/
theorem C5_cached_frame_spec (env : DiskEnv) (st : BackendState) (t : ℚ) :
    (GetCachedFrame env st t).2 =
      (if st.copiedViewer = true ∧ st.cacheId ≠ ""
          ∧ st.params.is_valid = true ∧ TimeToHash st.frameCache t ≠ ""
          ∧ env.fileExists
              (CachePathName st.cacheId (TimeToHash st.frameCache t)) = true
       then env.decode (CachePathName st.cacheId (TimeToHash st.frameCache t))
       else none)
    ∧ ((GetCachedFrame env st t).2.isSome = true ↔
        st.copiedViewer = true ∧ st.cacheId ≠ ""
        ∧ st.params.is_valid = true ∧ TimeToHash st.frameCache t ≠ ""
        ∧ env.fileExists
            (CachePathName st.cacheId (TimeToHash st.frameCache t)) = true
        ∧ (env.decode
            (CachePathName st.cacheId (TimeToHash st.frameCache t))).isSome
              = true) := by
  have h1 :
      (GetCachedFrame env st t).2 =
        (if st.copiedViewer = true ∧ st.cacheId ≠ ""
            ∧ st.params.is_valid = true ∧ TimeToHash st.frameCache t ≠ ""
            ∧ env.fileExists
                (CachePathName st.cacheId (TimeToHash st.frameCache t)) = true
         then env.decode (CachePathName st.cacheId (TimeToHash st.frameCache t))
         else none) := by
    simp only [GetCachedFrame]
    by_cases hcv : st.copiedViewer = false
    · simp [hcv]
    · by_cases hid : st.cacheId = ""
      · simp [hcv, hid]
      · by_cases hv : st.params.is_valid = false
        · simp [hcv, hid, hv]
        · by_cases hh : TimeToHash st.frameCache t = ""
          · simp [hcv, hid, hv, hh]
          · by_cases hex : env.fileExists
                (CachePathName st.cacheId (TimeToHash st.frameCache t)) = false
            · simp [hcv, hid, hv, hh, hex]
            · have hcv2 : st.copiedViewer = true := by simpa using hcv
              have hv2 : st.params.is_valid = true := by simpa using hv
              have hex2 : env.fileExists
                  (CachePathName st.cacheId (TimeToHash st.frameCache t))
                    = true := by simpa using hex
              cases hdec : env.decode
                  (CachePathName st.cacheId (TimeToHash st.frameCache t)) with
              | none => simp [hcv2, hid, hv2, hh, hex2, hdec]
              | some bytes => simp [hcv2, hid, hv2, hh, hex2, hdec]
  refine ⟨h1, ?_⟩
  rw [h1]
  constructor
  · intro hs
    by_cases hc : st.copiedViewer = true ∧ st.cacheId ≠ ""
        ∧ st.params.is_valid = true ∧ TimeToHash st.frameCache t ≠ ""
        ∧ env.fileExists
            (CachePathName st.cacheId (TimeToHash st.frameCache t)) = true
    · rw [if_pos hc] at hs
      exact ⟨hc.1, hc.2.1, hc.2.2.1, hc.2.2.2.1, hc.2.2.2.2, hs⟩
    · rw [if_neg hc] at hs
      exact absurd hs (by simp)
  · rintro ⟨hcv, hid, hv, hh, hex, hdec⟩
    rw [if_pos ⟨hcv, hid, hv, hh, hex⟩]
    exact hdec

/-- C1: with the playhead at time 2, a one-second time base and sequence
length 10, invalidating [0, 3] leaves the queue [0, 1, 2, 3] in enumeration
order: the head 0 (weighted distance 10, behind the playhead) is dequeued
before the point 2 (distance 0), so a strictly smaller distance does not
mean an earlier dequeue, contradicting both the claim and the comment at
part_000:62-71 — an existing entry is compared through its raw signed
distance, never through the ×5-penalized one. -/
theorem C1_queue_not_distance_ordered :
    (InvalidateCache true 4 true [] st0 0 3).cacheQueue = [0, 1, 2, 3]
    ∧ penalizedDiff st0.lastTimeRequested 0 = 10
    ∧ penalizedDiff st0.lastTimeRequested 2 = 0 := by
  refine ⟨?_, ?_, ?_⟩
  · norm_num [InvalidateCache, st0, vp0, VideoRenderingParams.is_valid,
      SequenceLength, snapToTimebase, enumPoints, penalizedDiff, insertScan,
      QueueValueUpdate, Truncate, CacheNext, Init, UpdateNodeInputs,
      GenerateData, Compile, doCompile, Decompile, firstIdleOrLast,
      List.range_succ]
  · norm_num [penalizedDiff, st0]
  · norm_num [penalizedDiff, st0]

/-- C2: the dedup check is only reached if no earlier queue entry triggers
an insertion first, so after the last requested time moves, a point already
in the queue is inserted again: invalidating 6, then 4 (playhead at 5), then
requesting frame 0, then invalidating 4 again yields the queue [4, 6, 4] —
the point 4 is queued twice, violating the claimed invariant. -/
theorem C2_queue_contains_duplicate :
    (InvalidateCache true 4 true []
        (GetCachedFrame envNone
          (InvalidateCache true 4 true []
            (InvalidateCache true 4 true [] stBehind 6 6) 4 4) 0).1
        4 4).cacheQueue = [4, 6, 4]
    ∧ ¬ ([4, 6, 4] : List ℚ).Nodup := by
  constructor
  · norm_num [InvalidateCache, GetCachedFrame, stBehind, st0, vp0, envNone,
      VideoRenderingParams.is_valid, SequenceLength, snapToTimebase,
      enumPoints, penalizedDiff, insertScan, QueueValueUpdate, Truncate,
      TimeToHash, CachePathName, CacheNext, Init, UpdateNodeInputs,
      GenerateData, Compile, doCompile, Decompile, firstIdleOrLast,
      List.range_succ]
  · norm_num [List.nodup_cons]

/-- C3 counterexample: with time base 1/24 and playhead at 0, invalidating
[1/48, 1/48] inserts the point 0, which lies strictly below the clamped
start max(0, 1/48) — the claim's "no point outside [max(0,start),
min(length,end)]" fails, because the start is snapped down before the
enumeration begins. -/
theorem C3_counterexample_point_below_start :
    (InvalidateCache true 4 true [] stSnap (1/48) (1/48)).cacheQueue = [0]
    ∧ (0 : ℚ) < max 0 (1/48) := by
  constructor
  · have hfl : Nat.floor ((1 : ℚ)/2) = 0 := by
      rw [Nat.floor_eq_zero]
      norm_num
    norm_num [InvalidateCache, stSnap, st0, vp0, VideoRenderingParams.is_valid,
      SequenceLength, snapToTimebase, enumPoints, penalizedDiff, insertScan,
      QueueValueUpdate, Truncate, CacheNext, Init, UpdateNodeInputs,
      GenerateData, Compile, doCompile, Decompile, firstIdleOrLast,
      hfl, List.range_succ]
  · norm_num

/-- C3 (amended): on a valid-parameter backend with an empty cache queue
(and a dispatch in flight, so the trailing dispatch does not pop),
`InvalidateCache(s, e)` fills the queue with exactly the time-base-aligned
points counted from the snapped-down clamped start
`snapToTimebase(max(0, s))` through the clamped end `min(length, e)` —
every such point is present, nothing else is, and no point appears twice. -/
theorem C3_enumerates_aligned_points (ii : Bool) (tc : Nat) (ci : Bool)
    (deps : List Nat) (st : BackendState) (s e : ℚ)
    (hv : st.params.is_valid = true) (htb : 0 < st.params.timeBase)
    (hq : st.cacheQueue = []) (hst : st.started = true)
    (hca : st.caching = true) :
    (∀ t : ℚ,
      t ∈ (InvalidateCache ii tc ci deps st s e).cacheQueue ↔
        ∃ k : ℕ,
          t = snapToTimebase (max 0 s) st.params.timeBase
                + (k : ℚ) * st.params.timeBase
          ∧ t ≤ min (SequenceLength st) e)
    ∧ ((InvalidateCache ii tc ci deps st s e).cacheQueue).Nodup := by
  rw [invalidateCache_queue ii tc ci deps st s e hv hst hca, hq]
  have hnd := enumPoints_nodup (snapToTimebase (max 0 s) st.params.timeBase)
    (min (SequenceLength st) e) st.params.timeBase htb
  have hperm := foldl_insertScan_perm st.lastTimeRequested
    (penalizedDiff st.lastTimeRequested)
    (enumPoints (snapToTimebase (max 0 s) st.params.timeBase)
      (min (SequenceLength st) e) st.params.timeBase) [] hnd (by simp)
  rw [List.append_nil] at hperm
  constructor
  · intro t
    rw [hperm.mem_iff]
    exact mem_enumPoints _ _ _ t htb
  · exact hperm.nodup_iff.mpr hnd

/-- C3 witness: the sample state satisfies the amended theorem's hypotheses,
and invalidating [0, 3] on it yields a duplicate-free queue. -/
theorem C3_witness :
    st0.params.is_valid = true ∧ (0 : ℚ) < st0.params.timeBase
    ∧ ((InvalidateCache true 4 true [] st0 0 3).cacheQueue).Nodup :=
  ⟨by decide, by norm_num [st0, vp0],
   (C3_enumerates_aligned_points true 4 true [] st0 0 3 (by decide)
      (by norm_num [st0, vp0]) rfl rfl rfl).2⟩

/-- C8 counterexample, three scenarios against the claim as stated.
(a) On a started backend all four claimed conditions hold but compilation
fails: the head of the queue is removed yet handed to no worker (the pool
holds an idle worker).  (b) On an uninitialized backend with the other three
conditions holding, `CacheNext` is not a no-op: its `Init()` call
(renderbackend.cpp:202) lazily starts the backend and the head 1 is
dispatched to worker 0.  (c) With an empty worker pool and all four
conditions holding and compilation succeeding, the head is removed yet
handed to no worker. -/
theorem C8_counterexample_dispatch :
    (stNoSnapshot.started = true ∧ stNoSnapshot.cacheQueue ≠ []
      ∧ stNoSnapshot.viewerConnected = true ∧ stNoSnapshot.caching = false
      ∧ stNoSnapshot.processors ≠ []
      ∧ (CacheNext true 4 false [] stNoSnapshot).2 = none
      ∧ (CacheNext true 4 false [] stNoSnapshot).1.cacheQueue = [])
    ∧ (IsInitiated stLazy = false ∧ stLazy.cacheQueue ≠ []
      ∧ stLazy.viewerConnected = true ∧ stLazy.caching = false
      ∧ (CacheNext true 4 true [] stLazy).2 = some (1, 0)
      ∧ (CacheNext true 4 true [] stLazy).1.started = true)
    ∧ (stNoPool.started = true ∧ stNoPool.cacheQueue ≠ []
      ∧ stNoPool.viewerConnected = true ∧ stNoPool.caching = false
      ∧ stNoPool.processors = []
      ∧ (CacheNext true 4 true [] stNoPool).2 = none
      ∧ (CacheNext true 4 true [] stNoPool).1.cacheQueue = []) := by
  refine ⟨⟨rfl, by decide, rfl, rfl, by decide, ?_, ?_⟩,
          ⟨rfl, by decide, rfl, rfl, ?_, ?_⟩,
          ⟨rfl, by decide, rfl, rfl, rfl, ?_, ?_⟩⟩
  all_goals
    simp [CacheNext, Init, Close, UpdateNodeInputs, GenerateData, Compile,
      doCompile, Decompile, firstIdleOrLast, List.headI,
      stNoSnapshot, stLazy, stNoPool, st0, vp0]

/-- C8 (amended): `CacheNext` begins with an `Init()` call that lazily
initializes an unstarted backend (on a failed subclass init the thread
mutations of that attempt remain, see `C4_init_failure_keeps_threads`).  It
dispatches nothing and returns the post-`Init` state whenever that call
fails, the queue is empty, no viewer is connected, or a dispatch is in
flight.  When the `Init` call succeeds, a viewer is connected, no dispatch
is in flight, the queue is non-empty, the worker pool is non-empty and graph
compilation succeeds, it refreshes any queued value update, removes exactly
the head of the queue and hands it to the first idle worker — or to the last
worker in the pool when none is idle — setting the in-flight flag. -/
theorem C8_dispatch_conditions :
    (∀ (ii : Bool) (tc : Nat) (ci : Bool) (deps : List Nat)
        (st : BackendState),
      ((Init ii tc st).2 = false ∨ st.cacheQueue = []
        ∨ st.viewerConnected = false ∨ st.caching = true) →
      CacheNext ii tc ci deps st = ((Init ii tc st).1, none))
    ∧ (∀ (ii : Bool) (tc : Nat) (ci : Bool) (deps : List Nat)
        (st : BackendState),
        (Init ii tc st).2 = true → st.viewerConnected = true →
        st.caching = false → st.cacheQueue ≠ [] → st.processors ≠ [] →
        (Compile ci deps
          { UpdateNodeInputs (Init ii tc st).1 with
              cacheQueue := st.cacheQueue.tail }).2 = true →
        ∃ w, CacheNext ii tc ci deps st =
            ({ (Compile ci deps
                  { UpdateNodeInputs (Init ii tc st).1 with
                      cacheQueue := st.cacheQueue.tail }).1 with
                caching := true },
              some (st.cacheQueue.headI, w))
          ∧ (Compile ci deps
              { UpdateNodeInputs (Init ii tc st).1 with
                  cacheQueue := st.cacheQueue.tail }).1.cacheQueue
                = st.cacheQueue.tail
          ∧ (Compile ci deps
              { UpdateNodeInputs (Init ii tc st).1 with
                  cacheQueue := st.cacheQueue.tail }).1.valueUpdateQueued
                = false
          ∧ (st.valueUpdateQueued = true →
              (Compile ci deps
                { UpdateNodeInputs (Init ii tc st).1 with
                    cacheQueue := st.cacheQueue.tail }).1.refreshLog
                  = st.valueUpdateRange :: st.refreshLog)
          ∧ (∀ j, j < w → st.processors.getD j false = false)
          ∧ (st.processors.getD w false = true
              ∨ w = st.processors.length - 1)) := by
  constructor
  · intro ii tc ci deps st hcond
    by_cases hst : st.started = true
    · rcases hcond with h | h | h | h
      · rw [init_eq, if_pos hst] at h
        exact absurd h (by simp)
      · simp [CacheNext, init_eq, hst, h]
      · simp [CacheNext, init_eq, hst, h]
      · simp [CacheNext, init_eq, hst, h]
    · rcases hcond with h | h | h | h
      · rw [init_eq, if_neg hst] at h
        simp [CacheNext, init_eq, hst, h]
      · simp [CacheNext, init_eq, hst, h]
      · simp [CacheNext, init_eq, hst, h]
      · simp [CacheNext, init_eq, hst, h]
  · intro ii tc ci deps st hinit h2 h3 h4 h7 hcomp
    obtain ⟨w, hw, hbef, hat⟩ := firstIdleOrLast_spec st.processors h7
    obtain ⟨hq, hv, hc, hvuI, hvrI, hrlI, hpI⟩ := Init_fst_fields ii tc st
    refine ⟨w, ?_, ?_, ?_, ?_, hbef, hat⟩
    · simp only [CacheNext]
      rw [if_neg (by simp [hinit, hq, hv, hc, h2, h3, h4])]
      rw [UpdateNodeInputs_cacheQueue, hq]
      simp only [GenerateData]
      rw [hcomp, if_neg (by simp), Compile_fst_processors]
      have hXp :
          ({ UpdateNodeInputs (Init ii tc st).1 with
              cacheQueue := st.cacheQueue.tail } : BackendState).processors
            = st.processors := by
        rw [show ({ UpdateNodeInputs (Init ii tc st).1 with
            cacheQueue := st.cacheQueue.tail } : BackendState).processors
              = (UpdateNodeInputs (Init ii tc st).1).processors from rfl]
        rw [UpdateNodeInputs_processors, hpI]
      rw [hXp, hw]
      rfl
    · rw [Compile_fst_cacheQueue]
    · rw [Compile_fst_valueUpdateQueued]
      exact UpdateNodeInputs_valueUpdateQueued _
    · intro hvu
      rw [Compile_fst_refreshLog]
      have hvuI2 : (Init ii tc st).1.valueUpdateQueued = true := by
        rw [hvuI, hvu]
      rw [show ({ UpdateNodeInputs (Init ii tc st).1 with
          cacheQueue := st.cacheQueue.tail } : BackendState).refreshLog
            = (UpdateNodeInputs (Init ii tc st).1).refreshLog from rfl]
      rw [UpdateNodeInputs_refreshLog _ hvuI2, hvrI, hrlI]

/-- C8 witness: the no-op arm at the sample state (empty queue, dispatch in
flight), and the dispatch arm at the unstarted backend `stLazy`: the `Init`
call succeeds (lazily starting it) and the head goes to worker 0, the first
idle one. -/
theorem C8_witness :
    CacheNext true 4 true [] st0 = ((Init true 4 st0).1, none)
    ∧ ∃ w, CacheNext true 4 true [] stLazy =
        ({ (Compile true []
              { UpdateNodeInputs (Init true 4 stLazy).1 with
                  cacheQueue := stLazy.cacheQueue.tail }).1 with
            caching := true },
          some (stLazy.cacheQueue.headI, w))
      ∧ (Compile true []
          { UpdateNodeInputs (Init true 4 stLazy).1 with
              cacheQueue := stLazy.cacheQueue.tail }).1.cacheQueue
            = stLazy.cacheQueue.tail
      ∧ (Compile true []
          { UpdateNodeInputs (Init true 4 stLazy).1 with
              cacheQueue := stLazy.cacheQueue.tail }).1.valueUpdateQueued
            = false
      ∧ (stLazy.valueUpdateQueued = true →
          (Compile true []
            { UpdateNodeInputs (Init true 4 stLazy).1 with
                cacheQueue := stLazy.cacheQueue.tail }).1.refreshLog
              = stLazy.valueUpdateRange :: stLazy.refreshLog)
      ∧ (∀ j, j < w → stLazy.processors.getD j false = false)
      ∧ (stLazy.processors.getD w false = true
          ∨ w = stLazy.processors.length - 1) :=
  ⟨C8_dispatch_conditions.1 true 4 true [] st0 (Or.inr (Or.inl rfl)),
   C8_dispatch_conditions.2 true 4 true [] stLazy (by decide) rfl rfl
     (by decide) (by decide) (by decide)⟩

end Olive
